import Mathlib

/-!
Verification of core behaviours of a federated social-networking server
(interaction-policy / approval engine, poll-vote tally, and supporting
utility code). Pure functions are embedded directly from the source;
components whose implementation is not available are modelled from the
specification, as marked in their doc comments.
-/

namespace GtsVerify

/-! ## Utility: status text tools (internal/util/statustools.go) -/

namespace Util

/-- Character class for the username part of a mention (word characters). -/
def isWordChar (c : Char) : Bool :=
  c.isAlpha || c.isDigit || c = '_'

/-- Character class for the domain part of a mention. -/
def isDomainChar (c : Char) : Bool :=
  c.isAlpha || c.isDigit || c = '-' || c = '.'

/-- Embeds the loop body of Go `unique`: keeps the first occurrence of each
string, tracking already-seen strings in `keys`. -/
def uniqueGo (keys : List String) : List String → List String
  | [] => []
  | entry :: rest =>
      if entry ∈ keys then uniqueGo keys rest
      else entry :: uniqueGo (entry :: keys) rest

/-- Go `unique`: returns a deduplicated (first-occurrence, case-sensitive)
version of a string slice. -/
def unique (s : List String) : List String := uniqueGo [] s

/-- ASCII lowering of one character (the fragment of Go `strings.ToLower`
relevant to mention/hashtag/emoji text, which is ASCII). -/
def charLower (c : Char) : Char :=
  if 'A' ≤ c ∧ c ≤ 'Z' then Char.ofNat (c.toNat + 32) else c

/-- Lowercases a string, character by character (Go `strings.ToLower`
restricted to ASCII input). -/
def toLowerGo (s : String) : String := String.mk (s.toList.map charLower)

/-- Go `lower`: lowercases all strings in a string slice
(`strings.ToLower` on each element). -/
def lower (s : List String) : List String := s.map toLowerGo

/-- Splits a character list into space-separated tokens
(helper for the modelled mention finder). -/
def splitTokensGo : List Char → List Char → List (List Char)
  | [], acc => [acc.reverse]
  | c :: rest, acc =>
      if c = ' ' then acc.reverse :: splitTokensGo rest []
      else splitTokensGo rest (c :: acc)

/-- Whether a whole token has the shape of a mention: an at-sign, a nonempty
run of word characters, optionally another at-sign and a nonempty domain. -/
def isMentionToken (t : List Char) : Bool :=
  match t with
  | '@' :: rest =>
      let uname := rest.takeWhile isWordChar
      let rest' := rest.dropWhile isWordChar
      decide (uname ≠ []) &&
        (match rest' with
         | [] => true
         | '@' :: dom => decide (dom ≠ []) && dom.all isDomainChar
         | _ => false)
  | _ => false

/-- Modelled from the spec: `mentionFinderRegex` is not under src/. Per the
doc comment of `DeriveMentionsFromStatus` it finds fully-qualified account
names of the form "@user@example.org" or "@username" for local users, as
literal (case-preserving) matched text. Modelled as: the space-separated
tokens of the status that are mention-shaped. -/
def mentionMatches (status : String) : List String :=
  (splitTokensGo status.toList []).filterMap
    (fun t => if isMentionToken t then some (String.mk t) else none)

/-- Go `DeriveMentionsFromStatus`: extracts regex matches, deduplicates them
with `unique`, then lowercases the result with `lower` (in that order,
exactly as the source composes them). -/
def DeriveMentionsFromStatus (status : String) : List String :=
  lower (unique (mentionMatches status))

/-- Modelled from the spec: `mentionNameRegex` is not under src/. Per the doc
comment of `ExtractMentionParts` it matches mention strings like
"@test_user@example.org" (or just "@username" for local users). Returns the
Go `FindStringSubmatch` result: `none` when unmatched, otherwise the list
`[full match, username group, domain group]`, the domain group being the
empty string when absent (Go fills non-participating groups with ""). -/
def mentionNameFind (mention : String) : Option (List String) :=
  match mention.toList with
  | '@' :: rest =>
      let uname := rest.takeWhile isWordChar
      let rest' := rest.dropWhile isWordChar
      if uname = [] then none
      else
        match rest' with
        | [] => some [mention, String.mk uname, ""]
        | '@' :: dom =>
            if dom ≠ [] ∧ dom.all isDomainChar then
              some [mention, String.mk uname, String.mk dom]
            else none
        | _ => none
  | _ => none

/-- Result of `ExtractMentionParts` (the two named return values). -/
structure MentionParts where
  username : String
  domain : String
  deriving DecidableEq

/-- Go `ExtractMentionParts`: runs `mentionNameRegex.FindStringSubmatch`; on
no match returns an error. Otherwise `username = matches[1]`, and `domain`
is assigned from `matches[2]` only under the source's condition
`len(matches) == 2`. -/
def ExtractMentionParts (mention : String) : Except String MentionParts :=
  match mentionNameFind mention with
  | none => Except.error ( "could not match mention " ++ mention)
  | some ms =>
      let username := ms.getD 1 ""
      let domain := if ms.length = 2 then ms.getD 2 "" else ""
      Except.ok ⟨username, domain⟩

end Util

/-! ## Domain-permission import: deduplication (web source, unnamed part) -/

namespace DomainPermImport

/-- A domain-permission entry as handled by the import form
(fields beyond `domain` are irrelevant to deduplication). -/
structure DomainPerm where
  domain : String
  obfuscate : Option Bool := none
  privateComment : Option String := none
  publicComment : Option String := none
  valid : Option Bool := none
  deriving DecidableEq

/-- Embeds the stateful filter of `deduplicateDomainList`: `domains` is the
set of domain values already admitted; an entry passes the filter exactly
when its domain has not been seen before. -/
def dedupeGo (domains : List String) : List DomainPerm → List DomainPerm
  | [] => []
  | entry :: rest =>
      if entry.domain ∈ domains then dedupeGo domains rest
      else entry :: dedupeGo (entry.domain :: domains) rest

/-- `deduplicateDomainList`: filters the list, keeping an entry only the
first time its domain value is encountered. -/
def deduplicateDomainList (list : List DomainPerm) : List DomainPerm :=
  dedupeGo [] list

end DomainPermImport

/-! ## Poll processor: getTargetPoll (polls package source, unnamed part) -/

namespace Polls

/-- Database-layer errors: the distinguished no-entries signal
(`db.ErrNoEntries`) versus any other storage failure. -/
inductive DBError
  | noEntries
  | other (msg : String)
  deriving DecidableEq

/-- Coded errors as produced by `gtserror`: NotFound, Internal (wrapping the
underlying storage error), and any further code a collaborator may return. -/
inductive WithCode
  | notFound (msg : String)
  | internalError (wrapped : DBError)
  | forbidden (msg : String)
  deriving DecidableEq

/-- The requesting account (only its identity matters here). -/
structure Account where
  id : String
  deriving DecidableEq

/-- The originating status of a poll, as returned by the visibility check. -/
structure StatusRec where
  id : String
  accountID : String
  deriving DecidableEq

/-- A poll: its ID, the ID of its originating status, and the status record
once attached. -/
structure Poll where
  id : String
  statusID : String
  status : Option StatusRec := none
  deriving DecidableEq

/-- The tail of `getTargetPoll` after the storage-error check: nil poll is
NotFound; otherwise the originating status is fetched through the
visibility check and attached to the poll before it is returned. -/
def getTargetPollRest
    (getVisibleTargetStatus : Account → String → Except WithCode StatusRec)
    (requestingAccount : Account) (pollOpt : Option Poll) :
    Except WithCode Poll :=
  match pollOpt with
  | none => Except.error (WithCode.notFound "target poll not found")
  | some poll =>
      match getVisibleTargetStatus requestingAccount poll.statusID with
      | Except.error errWithCode => Except.error errWithCode
      | Except.ok status => Except.ok { poll with status := some status }

/-- `getTargetPoll`: loads the poll by ID; a storage error other than
no-entries becomes an Internal error wrapping it; then the nil-poll check
and visibility check follow (`getTargetPollRest`). -/
def getTargetPoll
    (getPollByID : String → Option Poll × Option DBError)
    (getVisibleTargetStatus : Account → String → Except WithCode StatusRec)
    (requestingAccount : Account) (targetID : String) :
    Except WithCode Poll :=
  let res := getPollByID targetID
  match res.2 with
  | some e =>
      if e ≠ DBError.noEntries then Except.error (WithCode.internalError e)
      else getTargetPollRest getVisibleTargetStatus requestingAccount res.1
  | none => getTargetPollRest getVisibleTargetStatus requestingAccount res.1

end Polls

/-! ## Core: interaction-policy engine, approval processor, poll tally.
All of these components are absent from src/ (only their interfaces, tests
and callers are present), so they are modelled from the specification. -/

namespace Core

/-- The spec's error taxonomy: NotFound, Conflict, Forbidden, Invalid,
Internal. -/
inductive ErrCode
  | notFound
  | conflict
  | forbidden
  | invalid
  | internalError
  deriving DecidableEq

/-- The closed set of interaction kinds. -/
inductive InteractionKind
  | reply
  | reblog
  | favourite
  deriving DecidableEq

/-- Scope of an interaction-policy rule. -/
inductive Scope
  | everyone
  | followers
  | mentioned
  | me
  deriving DecidableEq

/-- Answers of the domain-permission collaborator. -/
inductive DomainPermAnswer
  | blocked
  | silenced
  | allowed
  deriving DecidableEq

/-- Outcome of policy evaluation. -/
inductive Outcome
  | allow
  | requireApproval
  | forbid
  deriving DecidableEq

/-- Visibility levels a default policy can be derived from. -/
inductive Visibility
  | publicVis
  | unlisted
  | followersOnly
  | direct
  deriving DecidableEq

/-- A per-kind interaction-policy rule. -/
structure PolicyRule where
  scope : Scope
  automaticApproval : List String
  manualApproval : List String
  deriving DecidableEq

/-- An interaction policy: one rule per interaction kind. -/
structure InteractionPolicy where
  reply : PolicyRule
  reblog : PolicyRule
  favourite : PolicyRule
  deriving DecidableEq

/-- The target status as seen by the policy evaluator: owner, visibility,
mentioned account IDs, and an optional explicit policy. -/
structure PolicyStatus where
  accountID : String
  visibility : Visibility
  mentions : List String
  policy : Option InteractionPolicy := none
  deriving DecidableEq

/-- The requesting actor: account ID and home domain. -/
structure Requester where
  id : String
  domain : String
  deriving DecidableEq

/-- Modelled from the spec: the visibility-derived default rule used when a
status carries no explicit policy (public → Everyone; followers-only →
Followers; direct → Mentioned). -/
def defaultRule (v : Visibility) : PolicyRule :=
  match v with
  | Visibility.publicVis => ⟨Scope.everyone, [], []⟩
  | Visibility.unlisted => ⟨Scope.everyone, [], []⟩
  | Visibility.followersOnly => ⟨Scope.followers, [], []⟩
  | Visibility.direct => ⟨Scope.mentioned, [], []⟩

/-- Modelled from the spec: resolution of the effective rule for a kind —
explicit on the status, else the visibility-derived default. -/
def resolveRule (s : PolicyStatus) (kind : InteractionKind) : PolicyRule :=
  match s.policy with
  | some p =>
      match kind with
      | InteractionKind.reply => p.reply
      | InteractionKind.reblog => p.reblog
      | InteractionKind.favourite => p.favourite
  | none => defaultRule s.visibility

/-- Modelled from the spec: whether the scope is satisfied unconditionally
(everyone; mentioned and the requester is among the mentions; me and the
requester is the owner). -/
def scopeAuto (rule : PolicyRule) (s : PolicyStatus) (r : Requester) : Bool :=
  match rule.scope with
  | Scope.everyone => true
  | Scope.followers => false
  | Scope.mentioned => decide (r.id ∈ s.mentions)
  | Scope.me => decide (r.id = s.accountID)

/-- Modelled from the spec: whether the scope constraint is satisfiable but
not automatic (followers scope and the requester follows the owner). -/
def scopeManual (rule : PolicyRule) (s : PolicyStatus) (r : Requester)
    (follows : String → String → Bool) : Bool :=
  match rule.scope with
  | Scope.followers => follows r.id s.accountID
  | _ => false

/-- Modelled from the spec: `PolicyEvaluator.Evaluate` is absent from src/.
Algorithm: resolve the effective rule; a Blocked answer from the
domain-permission collaborator short-circuits to Forbid; membership in
AutomaticApproval or an unconditionally satisfied scope gives Allow;
membership in ManualApproval or a satisfiable-but-not-automatic scope gives
RequireApproval; otherwise Forbid. Pure: collaborators are input
functions and no state is produced. -/
def Evaluate (domainCheck : String → DomainPermAnswer)
    (follows : String → String → Bool)
    (s : PolicyStatus) (r : Requester) (kind : InteractionKind) : Outcome :=
  let rule := resolveRule s kind
  if domainCheck r.domain = DomainPermAnswer.blocked then Outcome.forbid
  else if r.id ∈ rule.automaticApproval ∨ scopeAuto rule s r = true then
    Outcome.allow
  else if r.id ∈ rule.manualApproval ∨ scopeManual rule s r follows = true then
    Outcome.requireApproval
  else Outcome.forbid

/-- Lifecycle state of an interaction request. -/
inductive RequestState
  | pending
  | accepted
  | rejected
  deriving DecidableEq

/-- A persisted interaction request. -/
structure InteractionRequest where
  id : String
  interactionURI : String
  kind : InteractionKind
  targetStatusID : String
  interactingAccountID : String
  state : RequestState
  decisionURI : Option String := none
  deriving DecidableEq

/-- A status as handled by the approval processor: the target status of a
request, or the interacting status awaiting approval. -/
structure StatusRec where
  id : String
  uri : String
  accountID : String
  pendingApproval : Bool
  approvedByURI : Option String := none
  rejectedByURI : Option String := none
  deriving DecidableEq

/-- An enqueued outbound federation delivery. -/
structure Delivery where
  activityURI : String
  targetAccountID : String
  deriving DecidableEq

/-- A created notification. -/
structure Notif where
  kind : String
  sourceAccountID : String
  targetAccountID : String
  statusID : String
  deriving DecidableEq

/-- State handled by the interaction-request store and approval processor:
persisted requests and statuses, plus the outbound delivery queue and
created notifications. -/
structure ProcState where
  requests : List InteractionRequest
  statuses : List StatusRec
  deliveries : List Delivery
  notifs : List Notif
  deriving DecidableEq

/-- Looks up a request by ID. -/
def findRequest (s : ProcState) (requestID : String) :
    Option InteractionRequest :=
  s.requests.find? (fun r => decide (r.id = requestID))

/-- Looks up a status by ID. -/
def findStatusByID (s : ProcState) (statusID : String) : Option StatusRec :=
  s.statuses.find? (fun st => decide (st.id = statusID))

/-- Looks up a status by URI. -/
def findStatusByURI (s : ProcState) (uri : String) : Option StatusRec :=
  s.statuses.find? (fun st => decide (st.uri = uri))

/-- Modelled from the spec: the newly minted decision-activity identifier,
unique per request. -/
def mintDecisionURI (requestID : String) : String :=
  "decision-activity/" ++ requestID

/-- Update applied to the interacting status on Accept: clears
PendingApproval and records the decision-activity URI. -/
def acceptUpdateStatus (interactionURI decisionURI : String)
    (st : StatusRec) : StatusRec :=
  if st.uri = interactionURI then
    { st with pendingApproval := false, approvedByURI := some decisionURI }
  else st

/-- Update applied to the interacting status on Reject: records a rejection
marker rather than deleting the status. -/
def rejectUpdateStatus (interactionURI decisionURI : String)
    (st : StatusRec) : StatusRec :=
  if st.uri = interactionURI then
    { st with rejectedByURI := some decisionURI }
  else st

/-- Modelled from the spec: `Accept(requestID, decidingAccount)` is absent
from src/ (only its test is present). NotFound if the request or its target
status is missing; Forbidden if the decider does not own the target status;
Conflict unless the request is still Pending. On success the Pending →
Accepted transition is a single conditional update; the interacting status
is marked approved; an Accept delivery is enqueued and a notification for
the interacting account is raised. -/
def Accept (s : ProcState) (decidingAccountID requestID : String) :
    Except ErrCode (ProcState × InteractionRequest) :=
  match findRequest s requestID with
  | none => Except.error ErrCode.notFound
  | some req =>
      match findStatusByID s req.targetStatusID with
      | none => Except.error ErrCode.notFound
      | some target =>
          if decidingAccountID ≠ target.accountID then
            Except.error ErrCode.forbidden
          else if req.state ≠ RequestState.pending then
            Except.error ErrCode.conflict
          else
            let uri := mintDecisionURI requestID
            let req' := { req with
              state := RequestState.accepted, decisionURI := some uri }
            Except.ok
              ({ requests := s.requests.map
                   (fun r => if r.id = requestID then req' else r),
                 statuses := s.statuses.map
                   (acceptUpdateStatus req.interactionURI uri),
                 deliveries := s.deliveries ++ [⟨uri, req.interactingAccountID⟩],
                 notifs := s.notifs ++
                   [⟨ "accept", target.accountID, req.interactingAccountID,
                     req.targetStatusID⟩] }, req')

/-- Modelled from the spec: `Reject(requestID, decidingAccount)` is absent
from src/. Symmetric precondition checks to Accept; Pending → Rejected; the
interacting status is marked with a rejection marker; a Reject delivery and
a rejection notification are produced. -/
def Reject (s : ProcState) (decidingAccountID requestID : String) :
    Except ErrCode (ProcState × InteractionRequest) :=
  match findRequest s requestID with
  | none => Except.error ErrCode.notFound
  | some req =>
      match findStatusByID s req.targetStatusID with
      | none => Except.error ErrCode.notFound
      | some target =>
          if decidingAccountID ≠ target.accountID then
            Except.error ErrCode.forbidden
          else if req.state ≠ RequestState.pending then
            Except.error ErrCode.conflict
          else
            let uri := mintDecisionURI requestID
            let req' := { req with
              state := RequestState.rejected, decisionURI := some uri }
            Except.ok
              ({ requests := s.requests.map
                   (fun r => if r.id = requestID then req' else r),
                 statuses := s.statuses.map
                   (rejectUpdateStatus req.interactionURI uri),
                 deliveries := s.deliveries ++ [⟨uri, req.interactingAccountID⟩],
                 notifs := s.notifs ++
                   [⟨ "reject", target.accountID, req.interactingAccountID,
                     req.targetStatusID⟩] }, req')

/-- An owner decision on a request. -/
inductive Decision
  | accept
  | reject
  deriving DecidableEq

/-- Applies a decision call (Accept or Reject). -/
def applyDecision (d : Decision) (s : ProcState)
    (decidingAccountID requestID : String) :
    Except ErrCode (ProcState × InteractionRequest) :=
  match d with
  | Decision.accept => Accept s decidingAccountID requestID
  | Decision.reject => Reject s decidingAccountID requestID

/-- The terminal request state established by a decision. -/
def decidedState (d : Decision) : RequestState :=
  match d with
  | Decision.accept => RequestState.accepted
  | Decision.reject => RequestState.rejected

/-- The status update a decision applies to the interacting status. -/
def decisionUpdateStatus (d : Decision) : String → String → StatusRec → StatusRec :=
  match d with
  | Decision.accept => acceptUpdateStatus
  | Decision.reject => rejectUpdateStatus

/-- The notification kind a decision produces. -/
def decisionNotifKind (d : Decision) : String :=
  match d with
  | Decision.accept => "accept"
  | Decision.reject => "reject"

/-- A poll as seen by the tally: ID, originating status, number of options,
multiple-choice flag, expiry time. -/
structure PollRec where
  id : String
  statusID : String
  options : Nat
  multiple : Bool
  expiresAt : Nat
  deriving DecidableEq

/-- A persisted poll vote. -/
structure PollVote where
  pollID : String
  accountID : String
  choices : List Nat
  deriving DecidableEq

/-- The poll-tally store: the persisted votes. -/
structure TallyState where
  votes : List PollVote
  deriving DecidableEq

/-- The persisted votes on a poll by an account. -/
def votesBy (st : TallyState) (pollID accountID : String) : List PollVote :=
  st.votes.filter (fun v => decide (v.pollID = pollID ∧ v.accountID = accountID))

/-- Looks up a poll by ID. -/
def lookupPoll (polls : List PollRec) (pollID : String) : Option PollRec :=
  polls.find? (fun p => decide (p.id = pollID))

/-- Modelled from the spec: `RegisterVote` is absent from src/ (only the db
interface is present). Invalid if the poll has expired, an index is out of
range, no index is given, or more than one index is given on a
single-choice poll; Conflict if the account already has a vote on the poll;
on success the vote is persisted. -/
def RegisterVote (polls : List PollRec) (now : Nat) (st : TallyState)
    (pollID accountID : String) (choices : List Nat) :
    Except ErrCode TallyState :=
  match lookupPoll polls pollID with
  | none => Except.error ErrCode.notFound
  | some poll =>
      if poll.expiresAt ≤ now then Except.error ErrCode.invalid
      else if ¬ choices.all (fun i => decide (i < poll.options)) = true then
        Except.error ErrCode.invalid
      else if choices = [] then Except.error ErrCode.invalid
      else if poll.multiple = false ∧ 1 < choices.length then
        Except.error ErrCode.invalid
      else if votesBy st pollID accountID ≠ [] then
        Except.error ErrCode.conflict
      else Except.ok ⟨st.votes ++ [⟨pollID, accountID, choices⟩]⟩

/-- The number of persisted votes on a poll naming option `i`. -/
def countOption (st : TallyState) (pollID : String) (i : Nat) : Nat :=
  st.votes.countP (fun v => decide (v.pollID = pollID ∧ i ∈ v.choices))

/-- Modelled from the spec: `CountVotes` is absent from src/ (only the db
interface `CountPollVotes` is present: counts keyed by option index,
reflecting every committed vote). -/
def CountVotes (st : TallyState) (poll : PollRec) : List Nat :=
  (List.range poll.options).map (countOption st poll.id)

/-- Modelled from the spec: `GetVoteBy` returns the account's prior vote if
present, else a NotFound signal. -/
def GetVoteBy (st : TallyState) (pollID accountID : String) :
    Except ErrCode PollVote :=
  match votesBy st pollID accountID with
  | [] => Except.error ErrCode.notFound
  | v :: _ => Except.ok v

/-- Runs a sequence of `RegisterVote` calls (account, chosen indices) on one
poll, stopping at the first error. -/
def registerAll (polls : List PollRec) (now : Nat) (pollID : String)
    (st : TallyState) : List (String × List Nat) → Except ErrCode TallyState
  | [] => Except.ok st
  | c :: rest =>
      match RegisterVote polls now st pollID c.1 c.2 with
      | Except.error e => Except.error e
      | Except.ok st' => registerAll polls now pollID st' rest

/-- The invariant of the tally store: at most one persisted vote per
(poll, account) pair. -/
def atMostOnePerPair (st : TallyState) : Prop :=
  ∀ pollID accountID : String, (votesBy st pollID accountID).length ≤ 1

end Core

end GtsVerify

/-! ## Theorems -/

namespace GtsVerify.DomainPermImport

theorem dedupeGo_sublist (keys : List String) (l : List DomainPerm) :
    (dedupeGo keys l).Sublist l := by
  induction l generalizing keys with
  | nil => simp [dedupeGo]
  | cons e rest ih =>
      simp only [dedupeGo]
      split
      · exact (ih keys).cons e
      · exact (ih (e.domain :: keys)).cons₂ e

theorem dedupeGo_not_mem_keys (keys : List String) (l : List DomainPerm) :
    ∀ e ∈ dedupeGo keys l, e.domain ∉ keys := by
  induction l generalizing keys with
  | nil => simp [dedupeGo]
  | cons e rest ih =>
      simp only [dedupeGo]
      split
      · exact ih keys
      · intro x hx
        rcases List.mem_cons.mp hx with hx | hx
        · subst hx; assumption
        · intro hk
          exact (ih (e.domain :: keys) x hx) (List.mem_cons_of_mem _ hk)

theorem dedupeGo_nodup (keys : List String) (l : List DomainPerm) :
    ((dedupeGo keys l).map DomainPerm.domain).Nodup := by
  induction l generalizing keys with
  | nil => simp [dedupeGo]
  | cons e rest ih =>
      simp only [dedupeGo]
      split
      · exact ih keys
      · simp only [List.map_cons, List.nodup_cons]
        refine ⟨?_, ih (e.domain :: keys)⟩
        intro hmem
        rcases List.mem_map.mp hmem with ⟨x, hx, hdx⟩
        exact (dedupeGo_not_mem_keys _ _ x hx) (by simp [hdx])

theorem dedupeGo_filter (keys : List String) (l : List DomainPerm) (d : String) :
    (d ∈ keys → (dedupeGo keys l).filter (fun e => decide (e.domain = d)) = [])
    ∧ (d ∉ keys → (dedupeGo keys l).filter (fun e => decide (e.domain = d)) =
        (l.filter (fun e => decide (e.domain = d))).take 1) := by
  induction l generalizing keys with
  | nil => simp [dedupeGo]
  | cons e rest ih =>
      simp only [dedupeGo]
      by_cases hk : e.domain ∈ keys
      · rw [if_pos hk]
        constructor
        · intro hd
          exact (ih keys).1 hd
        · intro hd
          have hne : ¬ (e.domain = d) := fun h => hd (h ▸ hk)
          rw [List.filter_cons_of_neg (by simpa using hne)]
          exact (ih keys).2 hd
      · rw [if_neg hk]
        constructor
        · intro hd
          have hne : ¬ (e.domain = d) := fun h => hk (h ▸ hd)
          rw [List.filter_cons_of_neg (by simpa using hne)]
          exact (ih (e.domain :: keys)).1 (List.mem_cons_of_mem _ hd)
        · intro hd
          by_cases hed : e.domain = d
          · rw [List.filter_cons_of_pos (by simpa using hed),
              List.filter_cons_of_pos (by simpa using hed)]
            have h0 : (dedupeGo (e.domain :: keys) rest).filter
                (fun e => decide (e.domain = d)) = [] :=
              (ih (e.domain :: keys)).1 (by simp [hed])
            simp [h0]
          · rw [List.filter_cons_of_neg (by simpa using hed),
              List.filter_cons_of_neg (by simpa using hed)]
            refine (ih (e.domain :: keys)).2 ?_
            intro hmem
            rcases List.mem_cons.mp hmem with h | h
            · exact hed h.symm
            · exact hd h

/-- C10: `deduplicateDomainList` returns the subsequence of its input keeping
exactly the first entry for each distinct domain value, in original order;
in the returned list every domain value occurs at most once. -/
theorem deduplicateDomainList_keeps_first (l : List DomainPerm) :
    (deduplicateDomainList l).Sublist l
    ∧ ((deduplicateDomainList l).map DomainPerm.domain).Nodup
    ∧ ∀ d : String,
        (deduplicateDomainList l).filter (fun e => decide (e.domain = d)) =
          (l.filter (fun e => decide (e.domain = d))).take 1 :=
  ⟨dedupeGo_sublist [] l, dedupeGo_nodup [] l,
    fun d => (dedupeGo_filter [] l d).2 (by simp)⟩

end GtsVerify.DomainPermImport

namespace GtsVerify.Util

/-- C8: evaluation of the code at a failing input. The status text
"@Foo @foo" contains two mentions that differ only in letter case; because
the source deduplicates with `unique` before lowercasing with `lower`,
`DeriveMentionsFromStatus` returns a list with two equal entries,
contradicting the claim (and the function's own documentation, which
promises a deduplicated, lowercased list). -/
theorem deriveMentions_duplicate_after_lowering :
    DeriveMentionsFromStatus "@Foo @foo" = [ "@foo", "@foo"]
    ∧ ¬ (DeriveMentionsFromStatus "@Foo @foo").Nodup := by
  constructor
  · decide
  · decide

/-- C9: evaluation of the code at a failing input. For the fully-qualified
mention "@test_user@example.org" the regex matches, producing the
three-element submatch list (full match, username, domain) that Go's
`FindStringSubmatch` returns for a two-group regex; but the source only
assigns the domain under `len(matches) == 2`, which never holds, so the
returned domain is empty instead of "example.org". -/
theorem extractMentionParts_drops_domain :
    mentionNameFind "@test_user@example.org" =
      some [ "@test_user@example.org", "test_user", "example.org"]
    ∧ ExtractMentionParts "@test_user@example.org" =
        Except.ok ⟨ "test_user", ""⟩ := by
  constructor
  · decide
  · rfl

end GtsVerify.Util

namespace GtsVerify.Polls

/-- C7: `getTargetPoll` distinguishes NotFound from other storage failures:
a storage failure other than the no-entries signal yields an Internal error
wrapping the storage error; a missing poll (nil poll, no error or the
no-entries signal) yields NotFound; and when the poll exists, the
originating status's visibility is checked for the requesting account
before the poll is returned (a visibility error propagates; on success the
poll is returned with the visible status attached). -/
theorem getTargetPoll_error_taxonomy
    (db : String → Option Poll × Option DBError)
    (vis : Account → String → Except WithCode StatusRec)
    (acct : Account) (targetID : String) :
    (∀ pollOpt msg, db targetID = (pollOpt, some (DBError.other msg)) →
        getTargetPoll db vis acct targetID =
          Except.error (WithCode.internalError (DBError.other msg)))
    ∧ (∀ errOpt, (errOpt = none ∨ errOpt = some DBError.noEntries) →
        db targetID = (none, errOpt) →
        getTargetPoll db vis acct targetID =
          Except.error (WithCode.notFound "target poll not found"))
    ∧ (∀ poll errOpt, (errOpt = none ∨ errOpt = some DBError.noEntries) →
        db targetID = (some poll, errOpt) →
        (∀ e, vis acct poll.statusID = Except.error e →
            getTargetPoll db vis acct targetID = Except.error e)
        ∧ (∀ st, vis acct poll.statusID = Except.ok st →
            getTargetPoll db vis acct targetID =
              Except.ok { poll with status := some st })) := by
  refine ⟨?_, ?_, ?_⟩
  · intro pollOpt msg hdb
    simp [getTargetPoll, hdb]
  · intro errOpt herr hdb
    rcases herr with h | h <;> subst h <;>
      simp [getTargetPoll, hdb, getTargetPollRest]
  · intro poll errOpt herr hdb
    constructor
    · intro e hvis
      rcases herr with h | h <;> subst h <;>
        simp [getTargetPoll, hdb, getTargetPollRest, hvis]
    · intro st hvis
      rcases herr with h | h <;> subst h <;>
        simp [getTargetPoll, hdb, getTargetPollRest, hvis]

/-- Witness for C7: the three cases applied at concrete collaborators. -/
theorem getTargetPoll_error_taxonomy_wit :
    getTargetPoll (fun _ => (none, some (DBError.other "disk failure")))
        (fun _ _ => Except.error (WithCode.forbidden "x")) ⟨ "a1"⟩ "p1" =
      Except.error (WithCode.internalError (DBError.other "disk failure"))
    ∧ getTargetPoll (fun _ => (none, some DBError.noEntries))
        (fun _ _ => Except.error (WithCode.forbidden "x")) ⟨ "a1"⟩ "p1" =
      Except.error (WithCode.notFound "target poll not found")
    ∧ getTargetPoll (fun _ => (some ⟨ "p1", "s1", none⟩, none))
        (fun _ _ => Except.ok ⟨ "s1", "owner"⟩) ⟨ "a1"⟩ "p1" =
      Except.ok ⟨ "p1", "s1", some ⟨ "s1", "owner"⟩⟩ :=
  ⟨(getTargetPoll_error_taxonomy _ _ _ _).1 none "disk failure" rfl,
   (getTargetPoll_error_taxonomy _ _ _ _).2.1
     (some DBError.noEntries) (Or.inr rfl) rfl,
   ((getTargetPoll_error_taxonomy _ _ _ _).2.2
     ⟨ "p1", "s1", none⟩ none (Or.inl rfl) rfl).2 ⟨ "s1", "owner"⟩ rfl⟩

end GtsVerify.Polls

namespace GtsVerify.Core

/-- C6: a Blocked answer from the domain-permission collaborator for the
requester's domain makes `Evaluate` return Forbid, regardless of the
status's policy scope, AutomaticApproval set, or ManualApproval set. -/
theorem evaluate_blocked_forbids
    (domainCheck : String → DomainPermAnswer)
    (follows : String → String → Bool)
    (s : PolicyStatus) (r : Requester) (kind : InteractionKind)
    (h : domainCheck r.domain = DomainPermAnswer.blocked) :
    Evaluate domainCheck follows s r kind = Outcome.forbid := by
  simp [Evaluate, h]

/-- Witness for C6: a requester from a blocked domain is forbidden even
though the status policy would automatically approve it. -/
theorem evaluate_blocked_forbids_wit :
    Evaluate (fun _ => DomainPermAnswer.blocked) (fun _ _ => true)
        ⟨ "owner", Visibility.publicVis, [ "u1"],
          some ⟨⟨Scope.everyone, [ "u1"], []⟩, ⟨Scope.everyone, [ "u1"], []⟩,
            ⟨Scope.everyone, [ "u1"], []⟩⟩⟩
        ⟨ "u1", "bad.example"⟩ InteractionKind.reply = Outcome.forbid :=
  evaluate_blocked_forbids _ _ _ _ _ rfl

/-- C5: `Evaluate` is deterministic and side-effect-free. It is a pure
function of its arguments (it returns only an `Outcome` and no state), and
it consults its collaborators only at the requester's domain and at the
(requester, owner) follow relation: two calls on the same status, requester
and kind whose collaborators give identical answers at those points return
the same outcome. -/
theorem evaluate_deterministic
    (dp1 dp2 : String → DomainPermAnswer)
    (f1 f2 : String → String → Bool)
    (s : PolicyStatus) (r : Requester) (kind : InteractionKind)
    (hdp : dp1 r.domain = dp2 r.domain)
    (hf : f1 r.id s.accountID = f2 r.id s.accountID) :
    Evaluate dp1 f1 s r kind = Evaluate dp2 f2 s r kind := by
  have hm : scopeManual (resolveRule s kind) s r f1 =
      scopeManual (resolveRule s kind) s r f2 := by
    cases h : (resolveRule s kind).scope <;> simp [scopeManual, h, hf]
  simp [Evaluate, hdp, hm]

/-- Witness for C5: two collaborator pairs agreeing at the consulted points
yield the same outcome. -/
theorem evaluate_deterministic_wit :
    Evaluate (fun d => if d = "example.org" then DomainPermAnswer.allowed
        else DomainPermAnswer.blocked)
      (fun _ _ => true)
      ⟨ "owner", Visibility.followersOnly, [], none⟩
      ⟨ "u1", "example.org"⟩ InteractionKind.reply
    = Evaluate (fun _ => DomainPermAnswer.allowed)
      (fun a _ => a = "u1")
      ⟨ "owner", Visibility.followersOnly, [], none⟩
      ⟨ "u1", "example.org"⟩ InteractionKind.reply :=
  evaluate_deterministic _ _ _ _ _ _ _ (by decide) (by decide)

end GtsVerify.Core

namespace GtsVerify.Core

theorem registerVote_ok_inv
    (polls : List PollRec) (now : Nat) (st : TallyState)
    (pollID acct : String) (c : List Nat) (st' : TallyState)
    (h : RegisterVote polls now st pollID acct c = Except.ok st') :
    votesBy st pollID acct = [] ∧
    st'.votes = st.votes ++ [⟨pollID, acct, c⟩] := by
  unfold RegisterVote at h
  cases hp : lookupPoll polls pollID with
  | none => rw [hp] at h; exact Except.noConfusion h
  | some poll =>
      rw [hp] at h
      dsimp only at h
      by_cases e1 : poll.expiresAt ≤ now
      · rw [if_pos e1] at h; exact Except.noConfusion h
      · rw [if_neg e1] at h
        by_cases e2 : ¬ c.all (fun i => decide (i < poll.options)) = true
        · rw [if_pos e2] at h; exact Except.noConfusion h
        · rw [if_neg e2] at h
          by_cases e3 : c = []
          · rw [if_pos e3] at h; exact Except.noConfusion h
          · rw [if_neg e3] at h
            by_cases e4 : poll.multiple = false ∧ 1 < c.length
            · rw [if_pos e4] at h; exact Except.noConfusion h
            · rw [if_neg e4] at h
              by_cases e5 : votesBy st pollID acct ≠ []
              · rw [if_pos e5] at h; exact Except.noConfusion h
              · rw [if_neg e5] at h
                refine ⟨not_not.mp e5, ?_⟩
                rw [← Except.ok.inj h]

theorem votesBy_append (l1 l2 : List PollVote) (pollID acct : String) :
    votesBy ⟨l1 ++ l2⟩ pollID acct =
      votesBy ⟨l1⟩ pollID acct ++ votesBy ⟨l2⟩ pollID acct :=
  List.filter_append l1 l2

/-- C2: at most one PollVote per (poll, account) pair. A successful first
vote `c1` by `acct` leaves exactly that one persisted vote for the pair; a
second `RegisterVote` by the same account on the same poll (with otherwise
valid input) returns Conflict; since the failed call produces no state, the
counts still reflect only the first vote: every option in `c1` is counted
exactly once more than before, and every other option is unchanged. The
at-most-one-vote-per-pair invariant is preserved. -/
theorem registerVote_revote_conflict
    (polls : List PollRec) (poll : PollRec) (now now' : Nat)
    (st st' : TallyState) (pollID acct : String) (c1 c2 : List Nat)
    (hfind : lookupPoll polls pollID = some poll)
    (h1 : RegisterVote polls now st pollID acct c1 = Except.ok st')
    (hexp : now' < poll.expiresAt)
    (hrange : c2.all (fun i => decide (i < poll.options)) = true)
    (hne : c2 ≠ [])
    (hmul : ¬ (poll.multiple = false ∧ 1 < c2.length))
    (hinv : atMostOnePerPair st) :
    RegisterVote polls now' st' pollID acct c2 = Except.error ErrCode.conflict
    ∧ votesBy st' pollID acct = [⟨pollID, acct, c1⟩]
    ∧ atMostOnePerPair st'
    ∧ ∀ i, countOption st' pollID i =
        countOption st pollID i + (if i ∈ c1 then 1 else 0) := by
  obtain ⟨hv0, hst'⟩ := registerVote_ok_inv polls now st pollID acct c1 st' h1
  have hvotes' : votesBy st' pollID acct = [⟨pollID, acct, c1⟩] := by
    have : st' = TallyState.mk (st.votes ++ [⟨pollID, acct, c1⟩]) := by
      cases st'; simpa using hst'
    rw [this, votesBy_append]
    have h2 : votesBy (TallyState.mk st.votes) pollID acct = [] := hv0
    rw [h2]
    simp [votesBy]
  refine ⟨?_, hvotes', ?_, ?_⟩
  · simp only [RegisterVote, hfind]
    rw [if_neg (Nat.not_le.mpr hexp), if_neg (by simp [hrange]),
      if_neg (by simp [hne]), if_neg hmul, if_pos (by simp [hvotes'])]
  · intro pid aid
    by_cases hpa : pollID = pid ∧ acct = aid
    · obtain ⟨hp, ha⟩ := hpa
      subst hp; subst ha
      rw [hvotes']
      simp
    · have : votesBy st' pid aid = votesBy st pid aid := by
        have hs : st' = TallyState.mk (st.votes ++ [⟨pollID, acct, c1⟩]) := by
          cases st'; simpa using hst'
        rw [hs, votesBy_append]
        have hone : votesBy (TallyState.mk [⟨pollID, acct, c1⟩]) pid aid = [] := by
          simp only [votesBy, List.filter]
          split
          · rename_i hdec
            exact absurd (of_decide_eq_true hdec) hpa
          · rfl
        rw [hone]
        simp [votesBy]
      rw [this]
      exact hinv pid aid
  · intro i
    have hs : st' = TallyState.mk (st.votes ++ [⟨pollID, acct, c1⟩]) := by
      cases st'; simpa using hst'
    rw [hs]
    simp only [countOption, List.countP_append, List.countP_cons,
      List.countP_nil]
    simp

end GtsVerify.Core

namespace GtsVerify.Core

/-- Witness for C2: on a two-option single-choice poll, account a1 votes for
option 0; the revote for option 1 returns Conflict, the stored vote is the
first one, option 0 is counted once and option 1 not at all. -/
theorem registerVote_revote_conflict_wit :
    RegisterVote [⟨ "p1", "s1", 2, false, 100⟩] 0 ⟨[⟨ "p1", "a1", [0]⟩]⟩
        "p1" "a1" [1] = Except.error ErrCode.conflict
    ∧ votesBy ⟨[⟨ "p1", "a1", [0]⟩]⟩ "p1" "a1" = [⟨ "p1", "a1", [0]⟩]
    ∧ countOption ⟨[⟨ "p1", "a1", [0]⟩]⟩ "p1" 0 = countOption ⟨[]⟩ "p1" 0 + 1
    ∧ countOption ⟨[⟨ "p1", "a1", [0]⟩]⟩ "p1" 1 = countOption ⟨[]⟩ "p1" 1 := by
  have h := registerVote_revote_conflict [⟨ "p1", "s1", 2, false, 100⟩]
    ⟨ "p1", "s1", 2, false, 100⟩ 0 0 ⟨[]⟩ ⟨[⟨ "p1", "a1", [0]⟩]⟩ "p1" "a1"
    [0] [1] rfl rfl (by decide) (by decide) (by decide) (by decide)
    (fun _ _ => Nat.zero_le 1)
  exact ⟨h.1, h.2.1, by simpa using h.2.2.2 0, by simpa using h.2.2.2 1⟩

theorem registerVote_ok_of_valid
    (polls : List PollRec) (poll : PollRec) (now : Nat) (st : TallyState)
    (pollID acct : String) (c : List Nat)
    (hfind : lookupPoll polls pollID = some poll)
    (hexp : now < poll.expiresAt)
    (hrange : c.all (fun i => decide (i < poll.options)) = true)
    (hne : c ≠ [])
    (hmul : ¬ (poll.multiple = false ∧ 1 < c.length))
    (hfresh : votesBy st pollID acct = []) :
    RegisterVote polls now st pollID acct c =
      Except.ok ⟨st.votes ++ [⟨pollID, acct, c⟩]⟩ := by
  simp only [RegisterVote, hfind]
  rw [if_neg (Nat.not_le.mpr hexp), if_neg (by simp [hrange]),
    if_neg (by simp [hne]), if_neg hmul, if_neg (by simp [hfresh])]

theorem registerAll_ok
    (polls : List PollRec) (poll : PollRec) (now : Nat) (pollID : String)
    (calls : List (String × List Nat)) (st : TallyState)
    (hfind : lookupPoll polls pollID = some poll)
    (hexp : now < poll.expiresAt)
    (hvalid : ∀ c ∈ calls, c.2 ≠ [] ∧
        c.2.all (fun i => decide (i < poll.options)) = true ∧
        ¬ (poll.multiple = false ∧ 1 < c.2.length))
    (hnodup : (calls.map Prod.fst).Nodup)
    (hfresh : ∀ c ∈ calls, votesBy st pollID c.1 = []) :
    registerAll polls now pollID st calls =
      Except.ok ⟨st.votes ++ calls.map (fun c => ⟨pollID, c.1, c.2⟩)⟩ := by
  induction calls generalizing st with
  | nil => simp [registerAll]
  | cons c rest ih =>
      obtain ⟨hne, hrange, hmul⟩ := hvalid c (List.mem_cons_self c rest)
      have hreg := registerVote_ok_of_valid polls poll now st pollID c.1 c.2
        hfind hexp hrange hne hmul (hfresh c (List.mem_cons_self c rest))
      simp only [registerAll, hreg]
      have hhead : c.1 ∉ rest.map Prod.fst := (List.nodup_cons.mp hnodup).1
      have hfresh' : ∀ c' ∈ rest,
          votesBy ⟨st.votes ++ [⟨pollID, c.1, c.2⟩]⟩ pollID c'.1 = [] := by
        intro c' hc'
        rw [votesBy_append]
        have h1 : votesBy ⟨st.votes⟩ pollID c'.1 = [] :=
          hfresh c' (List.mem_cons_of_mem c hc')
        have hne' : ¬ (c.1 = c'.1) := fun hacc =>
          hhead (hacc ▸ List.mem_map_of_mem Prod.fst hc')
        have h2 : votesBy ⟨[⟨pollID, c.1, c.2⟩]⟩ pollID c'.1 = [] := by
          simp [votesBy, hne']
        rw [h1, h2]
        rfl
      have hrest := ih ⟨st.votes ++ [⟨pollID, c.1, c.2⟩]⟩
        (fun c' hc' => hvalid c' (List.mem_cons_of_mem c hc'))
        (List.nodup_cons.mp hnodup).2 hfresh'
      rw [hrest]
      simp

/-- C4: after a sequence of valid `RegisterVote` calls from distinct
accounts on one poll, starting from an empty store, all calls succeed and
`CountVotes` returns, for every option index, exactly the number of calls
that chose that option. -/
theorem countVotes_after_all_votes
    (polls : List PollRec) (poll : PollRec) (now : Nat) (pollID : String)
    (calls : List (String × List Nat))
    (hfind : lookupPoll polls pollID = some poll)
    (hexp : now < poll.expiresAt)
    (hvalid : ∀ c ∈ calls, c.2 ≠ [] ∧
        c.2.all (fun i => decide (i < poll.options)) = true ∧
        ¬ (poll.multiple = false ∧ 1 < c.2.length))
    (hnodup : (calls.map Prod.fst).Nodup) :
    ∃ stN, registerAll polls now pollID ⟨[]⟩ calls = Except.ok stN
      ∧ CountVotes stN poll = (List.range poll.options).map
          (fun i => (calls.filter (fun c => decide (i ∈ c.2))).length) := by
  have hfind' := hfind
  unfold lookupPoll at hfind'
  have hsome := List.find?_some hfind'
  have hid : poll.id = pollID := by simpa using hsome
  refine ⟨_, registerAll_ok polls poll now pollID calls ⟨[]⟩ hfind hexp hvalid
    hnodup (fun c hc => rfl), ?_⟩
  have hcount : countOption ⟨List.nil ++ calls.map
      (fun c => (⟨pollID, c.1, c.2⟩ : PollVote))⟩ pollID =
      fun i => (calls.filter (fun c => decide (i ∈ c.2))).length := by
    funext i
    simp only [List.nil_append, countOption, List.countP_map]
    have hcomp : ((fun v => decide (v.pollID = pollID ∧ i ∈ v.choices)) ∘
        (fun c : String × List Nat => (⟨pollID, c.1, c.2⟩ : PollVote))) =
        fun c => decide (i ∈ c.2) := by
      funext c
      simp [Function.comp]
    rw [hcomp, List.countP_eq_length_filter]
  simp only [CountVotes, hid, hcount]

/-- Witness for C4: three accounts vote on a two-option multiple-choice
poll choosing options {0}, {0,1}, {1}; the counts are [2, 2]. -/
theorem countVotes_after_all_votes_wit :
    ∃ stN, registerAll [⟨ "p1", "s1", 2, true, 100⟩] 0 "p1" ⟨[]⟩
        [( "a1", [0]), ( "a2", [0, 1]), ( "a3", [1])] = Except.ok stN
      ∧ CountVotes stN ⟨ "p1", "s1", 2, true, 100⟩ = [2, 2] := by
  obtain ⟨stN, h1, h2⟩ := countVotes_after_all_votes
    [⟨ "p1", "s1", 2, true, 100⟩] ⟨ "p1", "s1", 2, true, 100⟩ 0 "p1"
    [( "a1", [0]), ( "a2", [0, 1]), ( "a3", [1])]
    rfl (by decide) (by decide) (by decide)
  exact ⟨stN, h1, by rw [h2]; rfl⟩

end GtsVerify.Core

namespace GtsVerify.Core

theorem find?_map_pres {α : Type} (l : List α) (f : α → α) (p : α → Bool)
    (hp : ∀ x, p (f x) = p x) :
    (l.map f).find? p = (l.find? p).map f := by
  have hpf : p ∘ f = p := funext hp
  rw [List.find?_map, hpf]

theorem acceptUpdateStatus_uri (a b : String) (st : StatusRec) :
    (acceptUpdateStatus a b st).uri = st.uri := by
  unfold acceptUpdateStatus; split <;> rfl

theorem acceptUpdateStatus_id (a b : String) (st : StatusRec) :
    (acceptUpdateStatus a b st).id = st.id := by
  unfold acceptUpdateStatus; split <;> rfl

theorem acceptUpdateStatus_accountID (a b : String) (st : StatusRec) :
    (acceptUpdateStatus a b st).accountID = st.accountID := by
  unfold acceptUpdateStatus; split <;> rfl

theorem rejectUpdateStatus_id (a b : String) (st : StatusRec) :
    (rejectUpdateStatus a b st).id = st.id := by
  unfold rejectUpdateStatus; split <;> rfl

theorem rejectUpdateStatus_accountID (a b : String) (st : StatusRec) :
    (rejectUpdateStatus a b st).accountID = st.accountID := by
  unfold rejectUpdateStatus; split <;> rfl

theorem find?_update_request (l : List InteractionRequest) (rid : String)
    (req req' : InteractionRequest)
    (h : l.find? (fun r => decide (r.id = rid)) = some req)
    (hid : req'.id = req.id) :
    (l.map (fun r => if r.id = rid then req' else r)).find?
      (fun r => decide (r.id = rid)) = some req' := by
  have hrid : req.id = rid := by simpa using List.find?_some h
  rw [find?_map_pres _ _ _
    (fun x => by by_cases hx : x.id = rid <;> simp [hx, hid, hrid]), h]
  simp [hrid]

theorem find?_map_id_pres (l : List StatusRec) (f : StatusRec → StatusRec)
    (tid : String) (target : StatusRec)
    (hpres : ∀ st, (f st).id = st.id)
    (h : l.find? (fun st => decide (st.id = tid)) = some target) :
    (l.map f).find? (fun st => decide (st.id = tid)) = some (f target) := by
  rw [find?_map_pres _ _ _ (fun x => by simp [hpres]), h]
  rfl

theorem accept_ok_eq
    (s : ProcState) (req : InteractionRequest) (target : StatusRec)
    (acct rid : String)
    (hreq : findRequest s rid = some req)
    (hpend : req.state = RequestState.pending)
    (htarget : findStatusByID s req.targetStatusID = some target)
    (hown : acct = target.accountID) :
    Accept s acct rid = Except.ok
      ({ requests := s.requests.map (fun r => if r.id = rid then
           { req with
             state := RequestState.accepted,
             decisionURI := some (mintDecisionURI rid) } else r),
         statuses := s.statuses.map
           (acceptUpdateStatus req.interactionURI (mintDecisionURI rid)),
         deliveries := s.deliveries ++
           [⟨mintDecisionURI rid, req.interactingAccountID⟩],
         notifs := s.notifs ++ [⟨ "accept", target.accountID,
           req.interactingAccountID, req.targetStatusID⟩] },
       { req with
         state := RequestState.accepted,
         decisionURI := some (mintDecisionURI rid) }) := by
  simp only [Accept, hreq, htarget]
  rw [if_neg (by simp [hown]), if_neg (by simp [hpend])]

theorem reject_ok_eq
    (s : ProcState) (req : InteractionRequest) (target : StatusRec)
    (acct rid : String)
    (hreq : findRequest s rid = some req)
    (hpend : req.state = RequestState.pending)
    (htarget : findStatusByID s req.targetStatusID = some target)
    (hown : acct = target.accountID) :
    Reject s acct rid = Except.ok
      ({ requests := s.requests.map (fun r => if r.id = rid then
           { req with
             state := RequestState.rejected,
             decisionURI := some (mintDecisionURI rid) } else r),
         statuses := s.statuses.map
           (rejectUpdateStatus req.interactionURI (mintDecisionURI rid)),
         deliveries := s.deliveries ++
           [⟨mintDecisionURI rid, req.interactingAccountID⟩],
         notifs := s.notifs ++ [⟨ "reject", target.accountID,
           req.interactingAccountID, req.targetStatusID⟩] },
       { req with
         state := RequestState.rejected,
         decisionURI := some (mintDecisionURI rid) }) := by
  simp only [Reject, hreq, htarget]
  rw [if_neg (by simp [hown]), if_neg (by simp [hpend])]

end GtsVerify.Core

namespace GtsVerify.Core

/-- C1: for a Pending request whose target status is owned by the deciding
account, `Accept` succeeds; the request transitions Pending → Accepted with
the newly minted decision-activity URI recorded; the interacting status has
PendingApproval cleared and ApprovedByURI set to that URI; and a
notification for the interacting account is raised. -/
theorem accept_pending_request
    (s : ProcState) (req : InteractionRequest) (target istatus : StatusRec)
    (acct rid : String)
    (hreq : findRequest s rid = some req)
    (hpend : req.state = RequestState.pending)
    (htarget : findStatusByID s req.targetStatusID = some target)
    (hown : acct = target.accountID)
    (hist : findStatusByURI s req.interactionURI = some istatus) :
    ∃ s' req',
      Accept s acct rid = Except.ok (s', req')
      ∧ req'.state = RequestState.accepted
      ∧ req'.decisionURI = some (mintDecisionURI rid)
      ∧ findRequest s' rid = some req'
      ∧ findStatusByURI s' req.interactionURI =
          some { istatus with
            pendingApproval := false,
            approvedByURI := some (mintDecisionURI rid) }
      ∧ Notif.mk "accept" target.accountID req.interactingAccountID
          req.targetStatusID ∈ s'.notifs := by
  have hacc := accept_ok_eq s req target acct rid hreq hpend htarget hown
  have huri : istatus.uri = req.interactionURI := by
    have := List.find?_some (show List.find?
      (fun st => decide (st.uri = req.interactionURI)) s.statuses =
        some istatus from hist)
    simpa using this
  refine ⟨_, _, hacc, rfl, rfl, ?_, ?_, ?_⟩
  · exact find?_update_request s.requests rid req _ hreq rfl
  · have hist' : List.find?
        (fun st => decide (st.uri = req.interactionURI)) s.statuses =
          some istatus := hist
    show (s.statuses.map
        (acceptUpdateStatus req.interactionURI (mintDecisionURI rid))).find?
        (fun st => decide (st.uri = req.interactionURI)) = _
    rw [find?_map_pres _ _ _ (fun x => by simp [acceptUpdateStatus_uri]), hist']
    simp [acceptUpdateStatus, huri]
  · simp

/-- Witness for C1: a concrete one-request state; the owner of the target
status accepts, the reply's PendingApproval is cleared and ApprovedByURI
set, and the interacting account is notified. -/
theorem accept_pending_request_wit :
    ∃ s' req',
      Accept ⟨[⟨ "r1", "uri-reply", InteractionKind.reply, "s-target", "a-int",
          RequestState.pending, none⟩],
        [⟨ "s-target", "uri-target", "a-owner", false, none, none⟩,
         ⟨ "s-reply", "uri-reply", "a-int", true, none, none⟩], [], []⟩
        "a-owner" "r1" = Except.ok (s', req')
      ∧ req'.state = RequestState.accepted
      ∧ req'.decisionURI = some (mintDecisionURI "r1")
      ∧ findRequest s' "r1" = some req'
      ∧ findStatusByURI s' "uri-reply" =
          some ⟨ "s-reply", "uri-reply", "a-int", false,
            some (mintDecisionURI "r1"), none⟩
      ∧ Notif.mk "accept" "a-owner" "a-int" "s-target" ∈ s'.notifs :=
  accept_pending_request
    ⟨[⟨ "r1", "uri-reply", InteractionKind.reply, "s-target", "a-int",
        RequestState.pending, none⟩],
      [⟨ "s-target", "uri-target", "a-owner", false, none, none⟩,
       ⟨ "s-reply", "uri-reply", "a-int", true, none, none⟩], [], []⟩
    ⟨ "r1", "uri-reply", InteractionKind.reply, "s-target", "a-int",
      RequestState.pending, none⟩
    ⟨ "s-target", "uri-target", "a-owner", false, none, none⟩
    ⟨ "s-reply", "uri-reply", "a-int", true, none, none⟩
    "a-owner" "r1" rfl rfl rfl rfl rfl

theorem decision_on_decided (s' : ProcState) (req' : InteractionRequest)
    (target' : StatusRec) (acct rid : String) (d : Decision)
    (hreq' : findRequest s' rid = some req')
    (htarget' : findStatusByID s' req'.targetStatusID = some target')
    (hown' : acct = target'.accountID)
    (hst : req'.state ≠ RequestState.pending) :
    applyDecision d s' acct rid = Except.error ErrCode.conflict := by
  cases d with
  | accept =>
      simp only [applyDecision, Accept, hreq', htarget']
      rw [if_neg (by simp [hown']), if_pos hst]
  | reject =>
      simp only [applyDecision, Reject, hreq', htarget']
      rw [if_neg (by simp [hown']), if_pos hst]

/-- C3: of two decision calls (Accept or Reject, in either combination) on
the same Pending request by the owner, the first succeeds — establishing
the terminal state of whichever decision it was — and the second returns
Conflict, because the Pending → decided transition only succeeds while the
request is still Pending. -/
theorem decision_race
    (s : ProcState) (req : InteractionRequest) (target : StatusRec)
    (acct rid : String) (d1 d2 : Decision)
    (hreq : findRequest s rid = some req)
    (hpend : req.state = RequestState.pending)
    (htarget : findStatusByID s req.targetStatusID = some target)
    (hown : acct = target.accountID) :
    ∃ s' req',
      applyDecision d1 s acct rid = Except.ok (s', req')
      ∧ req'.state = decidedState d1
      ∧ findRequest s' rid = some req'
      ∧ applyDecision d2 s' acct rid = Except.error ErrCode.conflict := by
  cases d1 with
  | accept =>
      have hacc := accept_ok_eq s req target acct rid hreq hpend htarget hown
      refine ⟨_, _, hacc, rfl,
        find?_update_request s.requests rid req _ hreq rfl, ?_⟩
      exact decision_on_decided _ _ _ acct rid d2
        (find?_update_request s.requests rid req _ hreq rfl)
        (find?_map_id_pres s.statuses _ req.targetStatusID target
          (acceptUpdateStatus_id req.interactionURI (mintDecisionURI rid))
          htarget)
        (by rw [acceptUpdateStatus_accountID]; exact hown)
        (by simp)
  | reject =>
      have hrej := reject_ok_eq s req target acct rid hreq hpend htarget hown
      refine ⟨_, _, hrej, rfl,
        find?_update_request s.requests rid req _ hreq rfl, ?_⟩
      exact decision_on_decided _ _ _ acct rid d2
        (find?_update_request s.requests rid req _ hreq rfl)
        (find?_map_id_pres s.statuses _ req.targetStatusID target
          (rejectUpdateStatus_id req.interactionURI (mintDecisionURI rid))
          htarget)
        (by rw [rejectUpdateStatus_accountID]; exact hown)
        (by simp)

/-- Witness for C3: on a concrete Pending request, Accept succeeds and the
subsequent Reject returns Conflict. -/
theorem decision_race_wit :
    ∃ s' req',
      applyDecision Decision.accept
        ⟨[⟨ "r1", "uri-reply", InteractionKind.reply, "s-target", "a-int",
            RequestState.pending, none⟩],
          [⟨ "s-target", "uri-target", "a-owner", false, none, none⟩], [], []⟩
        "a-owner" "r1" = Except.ok (s', req')
      ∧ req'.state = decidedState Decision.accept
      ∧ findRequest s' "r1" = some req'
      ∧ applyDecision Decision.reject s' "a-owner" "r1" =
          Except.error ErrCode.conflict :=
  decision_race
    ⟨[⟨ "r1", "uri-reply", InteractionKind.reply, "s-target", "a-int",
        RequestState.pending, none⟩],
      [⟨ "s-target", "uri-target", "a-owner", false, none, none⟩], [], []⟩
    ⟨ "r1", "uri-reply", InteractionKind.reply, "s-target", "a-int",
      RequestState.pending, none⟩
    ⟨ "s-target", "uri-target", "a-owner", false, none, none⟩
    "a-owner" "r1" Decision.accept Decision.reject rfl rfl rfl rfl

end GtsVerify.Core
